import Mathlib

/-!
Shallow embedding of the idea-factory pipeline server
(`src/server/services/evaluation.ts`, `src/server/services/enrichment.ts`,
`src/server/db.ts`).

Modelling conventions:
* TypeScript `number` is modelled as `ℚ` (scores may be negative or
  non-integral; the code only ever compares them with `>=`).
* String-literal union types (`category`, `stackFit`, `recommendation`,
  `capabilitiesFit`) are modelled as `String`: the runtime values come from
  `JSON.parse` followed by an unchecked `as` cast, so at runtime they are
  arbitrary strings, and `routeIdea` itself declares `recommendation: string`.
* The SQLite tables are modelled as association lists keyed by `idea_id`
  (`PRIMARY KEY`); `INSERT OR REPLACE` is the upsert that removes any row
  with the same key and prepends the new row.  JSON (de)serialisation of the
  nested blobs (`market_validation`, …) happens only at the storage boundary
  and round-trips, so the stored columns carry the typed values directly.
* The Gemini / Claude collaborator calls (`enrichIdea`, `evaluateIdea`) are
  external; they are modelled as uninterpreted functions in an `Executors`
  record returning `Except ExecError _`.
* Timestamps (`new Date().toISOString()`, `CURRENT_TIMESTAMP`) are modelled
  as a `Nat` clock value passed in by the caller.
-/

namespace IdeaFactory

/-- Idea lifecycle status values written by the server
(`'pending'`, `'enriched'`, `'evaluated-ready'`, `'deferred'`, `'research'`,
`'archived'`). -/
inductive Status where
  | pending
  | enriched
  | evaluatedReady
  | deferred
  | research
  | archived
deriving DecidableEq, Repr

/-- The four routing outcomes returned by `routeIdea`
(`evaluation.ts` lines 154–174). -/
inductive RouteDecision where
  | GENERATE_BLUEPRINT
  | DEFER_WITH_BLUEPRINT
  | NEEDS_VALIDATION
  | ARCHIVE_WITH_LEARNING
deriving DecidableEq, Repr

/-- `ROUTING_THRESHOLDS` constant object (`evaluation.ts` lines 147–152). -/
structure RoutingThresholds where
  BUILD_NOW : ℚ
  BUILD_LATER : ℚ
  RESEARCH : ℚ
  ARCHIVE : ℚ

def ROUTING_THRESHOLDS : RoutingThresholds :=
  { BUILD_NOW := 80, BUILD_LATER := 60, RESEARCH := 40, ARCHIVE := 0 }

/-- `routeIdea(evaluationScore, recommendation)` (`evaluation.ts` lines
154–174): ordered cascade of threshold tests, first match wins. -/
def routeIdea (evaluationScore : ℚ) (recommendation : String) : RouteDecision :=
  if evaluationScore ≥ ROUTING_THRESHOLDS.BUILD_NOW ∧ recommendation = "build-now" then
    .GENERATE_BLUEPRINT
  else if evaluationScore ≥ ROUTING_THRESHOLDS.BUILD_LATER then
    .DEFER_WITH_BLUEPRINT
  else if evaluationScore ≥ ROUTING_THRESHOLDS.RESEARCH then
    .NEEDS_VALIDATION
  else
    .ARCHIVE_WITH_LEARNING

/-- The route→status mapping: the nested conditional expression computing
`newStatus` in the `/evaluate` and `/analyze` handlers
(`enrichment.ts` lines 309–316 and 372–379). -/
def statusForRoute (route : RouteDecision) : Status :=
  if route = .GENERATE_BLUEPRINT then .evaluatedReady
  else if route = .DEFER_WITH_BLUEPRINT then .deferred
  else if route = .NEEDS_VALIDATION then .research
  else .archived

/-! ### Structured stage outputs (`EnrichmentOutput`, `EvaluationOutput`) -/

/-- `marketValidation` sub-object of `EnrichmentOutput`
(`enrichment.ts` lines 9–13). -/
structure MarketValidation where
  searchVolume : Option String
  competitors : List String
  marketGap : String
deriving DecidableEq, Repr

/-- `technicalFeasibility` sub-object of `EnrichmentOutput`
(`enrichment.ts` lines 14–18). -/
structure TechnicalFeasibility where
  stackFit : String
  dependencies : List String
  riskFactors : List String
deriving DecidableEq, Repr

/-- `resourceEstimate` sub-object of `EnrichmentOutput`
(`enrichment.ts` lines 19–23). -/
structure ResourceEstimate where
  estimatedHours : ℚ
  skillsRequired : List String
  costEstimate : Option ℚ
deriving DecidableEq, Repr

/-- `EnrichmentOutput` interface (`enrichment.ts` lines 6–24). -/
structure EnrichmentOutput where
  category : String
  complexityScore : ℚ
  marketValidation : MarketValidation
  technicalFeasibility : TechnicalFeasibility
  resourceEstimate : ResourceEstimate
deriving DecidableEq, Repr

/-- `EvaluationOutput` interface (`evaluation.ts` lines 7–15). -/
structure EvaluationOutput where
  jtbdAnalysis : String
  disruptionScore : ℚ
  capabilitiesFit : String
  recommendation : String
  caseStudyMatches : List String
  evaluationScore : ℚ
  rationale : String
deriving DecidableEq, Repr

/-! ### Database rows (`db.ts` table schemas) -/

/-- A row of the `ideas` table (`db.ts` lines 22–33). -/
structure IdeaRow where
  id : String
  source : String
  rawText : String
  createdAt : Nat
  context : Option String
  projectHint : Option String
  status : Status
  updatedAt : Nat
deriving DecidableEq, Repr

/-- A row of the `idea_enrichment` table (`db.ts` lines 36–48;
`idea_id` is the primary key).  The three JSON-blob columns hold the
serialised sub-objects; serialisation round-trips, so they are carried
typed here. -/
structure EnrichmentRow where
  ideaId : String
  category : String
  complexityScore : ℚ
  marketValidation : MarketValidation
  technicalFeasibility : TechnicalFeasibility
  resourceEstimate : ResourceEstimate
  enrichedAt : Nat
  enrichedBy : String
deriving DecidableEq, Repr

/-- A row of the `idea_evaluation` table (`db.ts` lines 51–63;
`idea_id` is the primary key).  Note: there is no `rationale` column. -/
structure EvaluationRow where
  ideaId : String
  jtbdAnalysis : String
  disruptionScore : ℚ
  capabilitiesFit : String
  strategicRecommendation : String
  caseStudyMatches : List String
  evaluationScore : ℚ
  evaluatedAt : Nat
deriving DecidableEq, Repr

/-- The SQLite database state: the three tables the pipeline touches,
each keyed by id / `idea_id`. -/
structure DB where
  ideas : List IdeaRow
  enrichments : List EnrichmentRow
  evaluations : List EvaluationRow
deriving DecidableEq, Repr

/-! ### Store operations -/

/-- `SELECT * FROM ideas WHERE id = ?` (used at the top of every
per-idea handler in `enrichment.ts`). -/
def findIdea (db : DB) (id : String) : Option IdeaRow :=
  db.ideas.find? (fun r => r.id == id)

/-- `getEnrichment(db, ideaId)` (`enrichment.ts` lines 102–120):
`SELECT * FROM idea_enrichment WHERE idea_id = ?`, rebuilding the
`EnrichmentOutput` from the row. -/
def getEnrichment (db : DB) (ideaId : String) : Option EnrichmentOutput :=
  (db.enrichments.find? (fun r => r.ideaId == ideaId)).map fun row =>
    { category := row.category
      complexityScore := row.complexityScore
      marketValidation := row.marketValidation
      technicalFeasibility := row.technicalFeasibility
      resourceEstimate := row.resourceEstimate }

/-- `getEvaluation(db, ideaId)` (`evaluation.ts` lines 125–145):
`SELECT * FROM idea_evaluation WHERE idea_id = ?`.  The returned
`rationale` field is `row.jtbd_analysis` ("Using JTBD as rationale for
Phase 1", line 143). -/
def getEvaluation (db : DB) (ideaId : String) : Option EvaluationOutput :=
  (db.evaluations.find? (fun r => r.ideaId == ideaId)).map fun row =>
    { jtbdAnalysis := row.jtbdAnalysis
      disruptionScore := row.disruptionScore
      capabilitiesFit := row.capabilitiesFit
      recommendation := row.strategicRecommendation
      caseStudyMatches := row.caseStudyMatches
      evaluationScore := row.evaluationScore
      rationale := row.jtbdAnalysis }

/-- `saveEnrichment(db, ideaId, enrichment)` (`enrichment.ts` lines 78–100):
`INSERT OR REPLACE INTO idea_enrichment` — the row with the same primary
key, if any, is replaced. -/
def saveEnrichment (db : DB) (ideaId : String) (e : EnrichmentOutput)
    (now : Nat) : DB :=
  { db with enrichments :=
      { ideaId := ideaId
        category := e.category
        complexityScore := e.complexityScore
        marketValidation := e.marketValidation
        technicalFeasibility := e.technicalFeasibility
        resourceEstimate := e.resourceEstimate
        enrichedAt := now
        enrichedBy := "gemini-1.5-flash" }
        :: db.enrichments.filter (fun r => ¬ (r.ideaId == ideaId)) }

/-- `saveEvaluation(db, ideaId, evaluation)` (`evaluation.ts` lines 101–123):
`INSERT OR REPLACE INTO idea_evaluation`.  The column list has no
`rationale`; `evaluation.rationale` is never written. -/
def saveEvaluation (db : DB) (ideaId : String) (e : EvaluationOutput)
    (now : Nat) : DB :=
  { db with evaluations :=
      { ideaId := ideaId
        jtbdAnalysis := e.jtbdAnalysis
        disruptionScore := e.disruptionScore
        capabilitiesFit := e.capabilitiesFit
        strategicRecommendation := e.recommendation
        caseStudyMatches := e.caseStudyMatches
        evaluationScore := e.evaluationScore
        evaluatedAt := now }
        :: db.evaluations.filter (fun r => ¬ (r.ideaId == ideaId)) }

/-- `UPDATE ideas SET status = ?, updated_at = ? WHERE id = ?`
(the status write in each detached task). -/
def updateIdeaStatus (db : DB) (id : String) (st : Status) (now : Nat) : DB :=
  { db with ideas :=
      db.ideas.map fun r =>
        if r.id == id then { r with status := st, updatedAt := now } else r }

/-! ### Stage executors (external collaborators) and errors -/

/-- Failure modes of a collaborator call (`GenerationError` for malformed
or missing structured output, `TransportError` for unavailability). -/
inductive ExecError where
  | GenerationError
  | TransportError
deriving DecidableEq, Repr

/-- The two external stage executors, `enrichIdea(idea, context)`
(`enrichment.ts` lines 57–76) and `evaluateIdea(idea, enrichedData)`
(`evaluation.ts` lines 70–99), as uninterpreted async functions returning
a structured record or a typed failure. -/
structure Executors where
  enrichIdea : String → Option String → Except ExecError EnrichmentOutput
  evaluateIdea : String → EnrichmentOutput → Except ExecError EvaluationOutput

/-- Errors reported synchronously by the HTTP handlers:
`ValidationError` = 400 "rawText is required";
`NotFoundError` = 404 "Idea not found";
`PreconditionError` = 400 "Idea must be enriched before evaluation";
`InternalError` = 500 (e.g. an `INSERT` hitting an existing primary key). -/
inductive ApiError where
  | ValidationError
  | NotFoundError
  | PreconditionError
  | InternalError
deriving DecidableEq, Repr

/-! ### Detached tasks

Each run endpoint responds first and then executes an `(async () => …)()`
IIFE.  A `ScheduledTask` is the data such a closure captures at scheduling
time; running it is a pure `DB → DB` function parameterised by the executor
outcomes. -/

/-- A detached unit of work captured by one of the three run endpoints. -/
inductive ScheduledTask where
  | enrichTask (id : String) (idea : IdeaRow)
  | evaluateTask (id : String) (idea : IdeaRow) (enr : EnrichmentOutput)
  | analyzeTask (id : String) (idea : IdeaRow)
deriving DecidableEq, Repr

/-- The detached task of `POST /api/ideas/:id/enrich`
(`enrichment.ts` lines 258–270): call the enrichment executor, persist the
record, set status `enriched`; the `catch` block only logs, so on executor
failure the database is untouched. -/
def runEnrichTask (db : DB) (id : String) (idea : IdeaRow) (ex : Executors)
    (now : Nat) : DB :=
  match ex.enrichIdea idea.rawText idea.context with
  | .error _ => db
  | .ok enr =>
      updateIdeaStatus (saveEnrichment db id enr now) id .enriched now

/-- The detached task of `POST /api/ideas/:id/evaluate`
(`enrichment.ts` lines 300–329): call the evaluation executor, persist the
record, route, write the mapped status; the `catch` block only logs. -/
def runEvalTask (db : DB) (id : String) (idea : IdeaRow)
    (enr : EnrichmentOutput) (ex : Executors) (now : Nat) : DB :=
  match ex.evaluateIdea idea.rawText enr with
  | .error _ => db
  | .ok ev =>
      let db1 := saveEvaluation db id ev now
      updateIdeaStatus db1 id
        (statusForRoute (routeIdea ev.evaluationScore ev.recommendation)) now

/-- Internal events of the `POST /api/ideas/:id/analyze` detached task
(`enrichment.ts` lines 353–390), in program order. -/
inductive PipelineEvent where
  | enrichExec
  | enrichPersist
  | evalExec
  | evalPersist
  | routeStatusUpdate
deriving DecidableEq, Repr

/-- The detached sequential task of `POST /api/ideas/:id/analyze`
(`enrichment.ts` lines 353–390): enrichment executor → `saveEnrichment` →
evaluation executor → `saveEvaluation` → route → status write, aborting at
the first failure (the `catch` only logs).  Returns the trace of events —
each paired with the database state in which it starts — together with the
final database state. -/
def analyzeRun (db : DB) (id : String) (idea : IdeaRow) (ex : Executors)
    (now : Nat) : List (PipelineEvent × DB) × DB :=
  match ex.enrichIdea idea.rawText idea.context with
  | .error _ => ([(.enrichExec, db)], db)
  | .ok enr =>
      let db1 := saveEnrichment db id enr now
      match ex.evaluateIdea idea.rawText enr with
      | .error _ =>
          ([(.enrichExec, db), (.enrichPersist, db), (.evalExec, db1)], db1)
      | .ok ev =>
          let db2 := saveEvaluation db1 id ev now
          let db3 := updateIdeaStatus db2 id
            (statusForRoute (routeIdea ev.evaluationScore ev.recommendation)) now
          ([(.enrichExec, db), (.enrichPersist, db), (.evalExec, db1),
            (.evalPersist, db1), (.routeStatusUpdate, db2)], db3)

/-- Final database state of the `/analyze` detached task. -/
def runAnalyzeTask (db : DB) (id : String) (idea : IdeaRow) (ex : Executors)
    (now : Nat) : DB :=
  (analyzeRun db id idea ex now).2

/-- Run any scheduled detached task to completion. -/
def runTask (db : DB) (t : ScheduledTask) (ex : Executors) (now : Nat) : DB :=
  match t with
  | .enrichTask id idea => runEnrichTask db id idea ex now
  | .evaluateTask id idea enr => runEvalTask db id idea enr ex now
  | .analyzeTask id idea => runAnalyzeTask db id idea ex now

/-! ### HTTP handlers: synchronous part -/

/-- `POST /api/ideas` (`enrichment.ts` lines 157–184).  `freshId` stands for
the `uuidv4()` call.  `if (!rawText)` rejects the empty string (falsy) with
a 400 `ValidationError`.  The plain `INSERT` (not `OR REPLACE`) would raise
a primary-key conflict if the id already existed, surfacing as a 500.  On
success the row is persisted (status `'pending'`, the schema defaults fill
both timestamps) before the response returns the new id. -/
def createIdea (db : DB) (freshId : String) (rawText : String)
    (context projectHint : Option String) (now : Nat) :
    Except ApiError (DB × String) :=
  if rawText = "" then .error .ValidationError
  else if (findIdea db freshId).isSome then .error .InternalError
  else .ok
    ({ db with ideas :=
        { id := freshId
          source := "manual"
          rawText := rawText
          createdAt := now
          context := context
          projectHint := projectHint
          status := .pending
          updatedAt := now } :: db.ideas },
      freshId)

/-- Synchronous part of `POST /api/ideas/:id/enrich`
(`enrichment.ts` lines 246–256): 404 if the idea is missing, otherwise
acknowledge and capture the detached task.  No write happens here. -/
def postEnrich (db : DB) (id : String) : Except ApiError ScheduledTask :=
  match findIdea db id with
  | none => .error .NotFoundError
  | some idea => .ok (.enrichTask id idea)

/-- Synchronous part of `POST /api/ideas/:id/evaluate`
(`enrichment.ts` lines 281–297): 404 if the idea is missing, 400
(`PreconditionError`) if no enrichment record exists, otherwise acknowledge
and capture the detached task.  No write happens here. -/
def postEvaluate (db : DB) (id : String) : Except ApiError ScheduledTask :=
  match findIdea db id with
  | none => .error .NotFoundError
  | some idea =>
      match getEnrichment db id with
      | none => .error .PreconditionError
      | some enr => .ok (.evaluateTask id idea enr)

/-- Synchronous part of `POST /api/ideas/:id/analyze`
(`enrichment.ts` lines 338–351): 404 if the idea is missing, otherwise
acknowledge and capture the detached sequential task. -/
def postAnalyze (db : DB) (id : String) : Except ApiError ScheduledTask :=
  match findIdea db id with
  | none => .error .NotFoundError
  | some idea => .ok (.analyzeTask id idea)

/-! ### Server-level request semantics -/

/-- A client request to the pipeline API. -/
inductive Request where
  | create (freshId : String) (rawText : String)
      (context projectHint : Option String)
  | enrich (id : String)
  | evaluate (id : String)
  | analyze (id : String)
deriving DecidableEq, Repr

/-- Server state: the database plus the detached tasks that have been
scheduled but have not yet completed (in flight). -/
structure ServerState where
  db : DB
  pending : List ScheduledTask
deriving DecidableEq, Repr

/-- Handle one request: run the synchronous handler part; an accepted run
request appends its detached task to the in-flight list (the server keeps
no per-idea tracking of tasks already in flight). -/
def handleRequest (s : ServerState) (req : Request) (now : Nat) :
    Except ApiError Unit × ServerState :=
  match req with
  | .create freshId rawText c p =>
      match createIdea s.db freshId rawText c p now with
      | .error e => (.error e, s)
      | .ok (db', _) => (.ok (), { s with db := db' })
  | .enrich id =>
      match postEnrich s.db id with
      | .error e => (.error e, s)
      | .ok t => (.ok (), { s with pending := s.pending ++ [t] })
  | .evaluate id =>
      match postEvaluate s.db id with
      | .error e => (.error e, s)
      | .ok t => (.ok (), { s with pending := s.pending ++ [t] })
  | .analyze id =>
      match postAnalyze s.db id with
      | .error e => (.error e, s)
      | .ok t => (.ok (), { s with pending := s.pending ++ [t] })

/-- A scheduled task completes: its effect is applied to the database and
it leaves the in-flight list. -/
def completeTask (s : ServerState) (t : ScheduledTask) (ex : Executors)
    (now : Nat) : ServerState :=
  { db := runTask s.db t ex now, pending := s.pending.erase t }

/-! ### Concrete sample data (for witnesses and counterexamples) -/

/-- A freshly created idea row, as `POST /api/ideas` persists it. -/
def sampleIdea : IdeaRow :=
  { id := "idea-1"
    source := "manual"
    rawText := "Build a tool"
    createdAt := 0
    context := none
    projectHint := none
    status := .pending
    updatedAt := 0 }

/-- A database holding just `sampleIdea`, not yet enriched. -/
def sampleDB : DB :=
  { ideas := [sampleIdea], enrichments := [], evaluations := [] }

/-- A concrete structured enrichment output. -/
def sampleEnrichment : EnrichmentOutput :=
  { category := "product"
    complexityScore := 1/2
    marketValidation :=
      { searchVolume := some "medium"
        competitors := ["CompA", "CompB"]
        marketGap := "gap" }
    technicalFeasibility :=
      { stackFit := "good"
        dependencies := ["sqlite"]
        riskFactors := ["risk"] }
    resourceEstimate :=
      { estimatedHours := 40
        skillsRequired := ["ts"]
        costEstimate := none } }

/-- A concrete evaluation output scoring 90 with recommendation
`build-now`. -/
def sampleEvaluation : EvaluationOutput :=
  { jtbdAnalysis := "jtbd"
    disruptionScore := 7/10
    capabilitiesFit := "strong"
    recommendation := "build-now"
    caseStudyMatches := ["case1"]
    evaluationScore := 90
    rationale := "because" }

/-- Executors for which both collaborator calls succeed with the sample
outputs. -/
def okExecutors : Executors :=
  { enrichIdea := fun _ _ => .ok sampleEnrichment
    evaluateIdea := fun _ _ => .ok sampleEvaluation }

/-- Executors for which both collaborator calls fail with
`TransportError`. -/
def failingExecutors : Executors :=
  { enrichIdea := fun _ _ => .error .TransportError
    evaluateIdea := fun _ _ => .error .TransportError }

/-! ### Helper lemmas about the store operations -/

/-- Reading an enrichment straight after upserting it returns exactly the
upserted output. -/
theorem getEnrichment_saveEnrichment (db : DB) (id : String)
    (e : EnrichmentOutput) (now : Nat) :
    getEnrichment (saveEnrichment db id e now) id = some e := by
  simp [getEnrichment, saveEnrichment, List.find?]

/-- An upsert into `idea_evaluation` leaves the `ideas` table unchanged,
so idea lookups are unaffected. -/
theorem findIdea_saveEvaluation (db : DB) (id id' : String)
    (e : EvaluationOutput) (now : Nat) :
    findIdea (saveEvaluation db id' e now) id = findIdea db id := rfl

/-- An upsert into `idea_enrichment` leaves the `ideas` table unchanged. -/
theorem findIdea_saveEnrichment (db : DB) (id id' : String)
    (e : EnrichmentOutput) (now : Nat) :
    findIdea (saveEnrichment db id' e now) id = findIdea db id := rfl

/-- Looking up an idea after the `UPDATE ideas SET status …` write yields
the looked-up row with the new status and timestamp. -/
theorem findIdea_updateIdeaStatus (db : DB) (id : String) (st : Status)
    (now : Nat) :
    findIdea (updateIdeaStatus db id st now) id =
      (findIdea db id).map (fun r => { r with status := st, updatedAt := now }) := by
  unfold findIdea updateIdeaStatus
  induction db.ideas with
  | nil => rfl
  | cons r rest ih =>
      by_cases h : r.id == id
      · have hid : ({ r with status := st, updatedAt := now } : IdeaRow).id = r.id := rfl
        simp [List.find?, h, hid]
      · have hid : ({ r with status := st, updatedAt := now } : IdeaRow).id = r.id := rfl
        simp only [List.map_cons]
        by_cases h' : r.id = id
        · exact absurd (by simp [h']) h
        · simp only [List.find?, h, if_neg h']
          simpa [h, h'] using ih

/-! ### Spec-side definition for the routing refinement claim -/

/-- The routing cascade exactly as the specification words it (§4.2):
ordered rules with literal thresholds 80 / 60 / 40, first match wins.
This is the spec-side definition, to be compared with `routeIdea`,
which is translated from the source. -/
def routeCascadeSpec (evaluationScore : ℚ) (recommendation : String) :
    RouteDecision :=
  if evaluationScore ≥ 80 ∧ recommendation = "build-now" then
    .GENERATE_BLUEPRINT
  else if evaluationScore ≥ 60 then .DEFER_WITH_BLUEPRINT
  else if evaluationScore ≥ 40 then .NEEDS_VALIDATION
  else .ARCHIVE_WITH_LEARNING

/-! ### Claim theorems -/

/-- C1: `routeIdea` implements the ordered cascade with inclusive
thresholds 80 / 60 / 40: it agrees with the spec's cascade everywhere;
score 85 with recommendation `"skip"` falls through to
`DEFER_WITH_BLUEPRINT`; and the three thresholds are inclusive. -/
theorem routeIdea_cascade_correct :
    (∀ (s : ℚ) (r : String), routeIdea s r = routeCascadeSpec s r) ∧
    routeIdea 85 "skip" = .DEFER_WITH_BLUEPRINT ∧
    routeIdea 80 "build-now" = .GENERATE_BLUEPRINT ∧
    routeIdea 60 "skip" = .DEFER_WITH_BLUEPRINT ∧
    routeIdea 40 "skip" = .NEEDS_VALIDATION := by
  refine ⟨fun s r => rfl, ?_, ?_, ?_, ?_⟩ <;> decide

/-- C9: `routeIdea` is total on ℚ × String and the recommendation
argument is dead below the top threshold: for any score strictly below 80
(negative and non-integer scores included) the result does not depend on
the recommendation, and any score strictly below 40 is routed to
`ARCHIVE_WITH_LEARNING`. -/
theorem routeIdea_recommendation_dead_below_80 (s : ℚ) (r1 r2 : String)
    (h : s < 80) :
    routeIdea s r1 = routeIdea s r2 ∧
    (s < 40 → routeIdea s r1 = .ARCHIVE_WITH_LEARNING) := by
  have h80 : ¬ s ≥ ROUTING_THRESHOLDS.BUILD_NOW := by
    simp only [ROUTING_THRESHOLDS, ge_iff_le, not_le]
    exact h
  have h1 : ¬ (s ≥ ROUTING_THRESHOLDS.BUILD_NOW ∧ r1 = "build-now") :=
    fun hc => h80 hc.1
  have h2 : ¬ (s ≥ ROUTING_THRESHOLDS.BUILD_NOW ∧ r2 = "build-now") :=
    fun hc => h80 hc.1
  constructor
  · unfold routeIdea
    rw [if_neg h1, if_neg h2]
  · intro h40
    have h60 : ¬ s ≥ ROUTING_THRESHOLDS.BUILD_LATER := by
      simp only [ROUTING_THRESHOLDS, ge_iff_le, not_le]
      linarith
    have h40' : ¬ s ≥ ROUTING_THRESHOLDS.RESEARCH := by
      simp only [ROUTING_THRESHOLDS, ge_iff_le, not_le]
      linarith
    unfold routeIdea
    rw [if_neg h1, if_neg h60, if_neg h40']

/-- Witness for C9 at the non-integer score 79.5. -/
theorem routeIdea_recommendation_dead_below_80_witness :
    (79.5 : ℚ) < 80 ∧
    routeIdea 79.5 "build-now" = routeIdea 79.5 "skip" :=
  ⟨by norm_num,
   (routeIdea_recommendation_dead_below_80 79.5 "build-now" "skip"
      (by norm_num)).1⟩

/-- C2: after a successful evaluation stage the status written to the idea
is the total route→status mapping — `GENERATE_BLUEPRINT ↦ evaluated-ready`,
`DEFER_WITH_BLUEPRINT ↦ deferred`, `NEEDS_VALIDATION ↦ research`,
`ARCHIVE_WITH_LEARNING ↦ archived` — applied to the route computed from
the persisted evaluation. -/
theorem evaluation_status_mapping (db : DB) (id : String) (idea : IdeaRow)
    (enr : EnrichmentOutput) (ex : Executors) (now : Nat)
    (ev : EvaluationOutput) (row : IdeaRow)
    (hev : ex.evaluateIdea idea.rawText enr = .ok ev)
    (hfind : findIdea db id = some row) :
    statusForRoute .GENERATE_BLUEPRINT = .evaluatedReady ∧
    statusForRoute .DEFER_WITH_BLUEPRINT = .deferred ∧
    statusForRoute .NEEDS_VALIDATION = .research ∧
    statusForRoute .ARCHIVE_WITH_LEARNING = .archived ∧
    findIdea (runEvalTask db id idea enr ex now) id =
      some { row with
        status := statusForRoute (routeIdea ev.evaluationScore ev.recommendation),
        updatedAt := now } := by
  refine ⟨rfl, rfl, rfl, rfl, ?_⟩
  unfold runEvalTask
  rw [hev]
  rw [findIdea_updateIdeaStatus, findIdea_saveEvaluation, hfind]
  rfl

/-- Witness for C2: the sample evaluation (score 90, `build-now`) leaves
the idea at status `evaluated-ready`. -/
theorem evaluation_status_mapping_witness :
    findIdea (runEvalTask sampleDB "idea-1" sampleIdea sampleEnrichment
        okExecutors 5) "idea-1" =
      some { sampleIdea with status := .evaluatedReady, updatedAt := 5 } :=
  (evaluation_status_mapping sampleDB "idea-1" sampleIdea sampleEnrichment
      okExecutors 5 sampleEvaluation sampleIdea rfl rfl).2.2.2.2

/-- C10: the `rationale` field of an `EvaluationOutput` is never
persisted: a save-then-get round-trip is the identity on every field
except `rationale`, which reads back as `jtbdAnalysis`. -/
theorem saveEvaluation_rationale_not_persisted (db : DB) (id : String)
    (e : EvaluationOutput) (now : Nat) :
    getEvaluation (saveEvaluation db id e now) id =
      some { e with rationale := e.jtbdAnalysis } := by
  simp [getEvaluation, saveEvaluation, List.find?]

/-- C7: re-running the enrichment persistence with the same executor
output is upsert-replace: the double run equals a single run, and exactly
one `idea_enrichment` row carries the idea's key afterwards. -/
theorem saveEnrichment_upsert_idempotent (db : DB) (id : String)
    (e : EnrichmentOutput) (t1 t2 : Nat) :
    saveEnrichment (saveEnrichment db id e t1) id e t2 =
      saveEnrichment db id e t2 ∧
    ((saveEnrichment (saveEnrichment db id e t1) id e t2).enrichments.filter
        (fun r => r.ideaId == id)).length = 1 := by
  constructor
  · simp [saveEnrichment, List.filter_filter]
  · simp [saveEnrichment, List.filter_filter]

/-- C6: `createIdea` rejects an empty `rawText` with `ValidationError`;
otherwise, for a fresh id, it returns that id and synchronously persists a
new idea row with status `pending` — present exactly once, with the other
tables untouched. -/
theorem createIdea_spec (db : DB) (freshId rawText : String)
    (c p : Option String) (now : Nat)
    (hfresh : findIdea db freshId = none) :
    (rawText = "" →
      createIdea db freshId rawText c p now = .error .ValidationError) ∧
    (rawText ≠ "" → ∃ db',
      createIdea db freshId rawText c p now = .ok (db', freshId) ∧
      findIdea db' freshId = some
        { id := freshId, source := "manual", rawText := rawText,
          createdAt := now, context := c, projectHint := p,
          status := .pending, updatedAt := now } ∧
      (db'.ideas.filter (fun r => r.id == freshId)).length = 1 ∧
      db'.enrichments = db.enrichments ∧
      db'.evaluations = db.evaluations) := by
  constructor
  · intro h
    simp [createIdea, h]
  · intro h
    refine ⟨{ db with ideas :=
        { id := freshId, source := "manual", rawText := rawText,
          createdAt := now, context := c, projectHint := p,
          status := .pending, updatedAt := now } :: db.ideas },
      ?_, ?_, ?_, rfl, rfl⟩
    · simp [createIdea, h, hfresh]
    · simp [findIdea, List.find?]
    · have htail : db.ideas.filter (fun r => r.id == freshId) = [] := by
        rw [List.filter_eq_nil_iff]
        intro r hr
        exact (List.find?_eq_none.mp hfresh) r hr
      simp [List.filter_cons, htail]

/-- Witness for C6: creating `"Build a tool"` under a fresh id succeeds
with a single pending row. -/
theorem createIdea_spec_witness :
    findIdea sampleDB "idea-2" = none ∧
    ∃ db', createIdea sampleDB "idea-2" "Build a tool" none none 7 =
        .ok (db', "idea-2") ∧
      findIdea db' "idea-2" = some
        { id := "idea-2", source := "manual", rawText := "Build a tool",
          createdAt := 7, context := none, projectHint := none,
          status := .pending, updatedAt := 7 } ∧
      (db'.ideas.filter (fun r => r.id == "idea-2")).length = 1 ∧
      db'.enrichments = sampleDB.enrichments ∧
      db'.evaluations = sampleDB.evaluations :=
  ⟨rfl,
   (createIdea_spec sampleDB "idea-2" "Build a tool" none none 7 rfl).2
     (by decide)⟩

/-- C3: a `runEvaluation` request on an idea with no enrichment record
fails synchronously — with `NotFoundError` when the idea does not exist,
otherwise with `PreconditionError` — without scheduling any detached task
and leaving the whole server state (idea status and all records)
unchanged. -/
theorem runEvaluation_sync_failure (s : ServerState) (id : String)
    (now : Nat) (h : getEnrichment s.db id = none) :
    (handleRequest s (.evaluate id) now).2 = s ∧
    ((findIdea s.db id = none ∧
        (handleRequest s (.evaluate id) now).1 = .error .NotFoundError) ∨
     (findIdea s.db id ≠ none ∧
        (handleRequest s (.evaluate id) now).1 = .error .PreconditionError)) := by
  cases hf : findIdea s.db id with
  | none =>
      refine ⟨?_, .inl ⟨rfl, ?_⟩⟩ <;>
        simp [handleRequest, postEvaluate, hf]
  | some idea =>
      refine ⟨?_, .inr ⟨by simp [hf], ?_⟩⟩ <;>
        simp [handleRequest, postEvaluate, hf, h]

/-- Witness for C3: evaluating the never-enriched sample idea is rejected
with `PreconditionError` and changes nothing. -/
theorem runEvaluation_sync_failure_witness :
    getEnrichment sampleDB "idea-1" = none ∧
    ((handleRequest ⟨sampleDB, []⟩ (.evaluate "idea-1") 3).2 =
        ⟨sampleDB, []⟩ ∧
      ((findIdea sampleDB "idea-1" = none ∧
          (handleRequest ⟨sampleDB, []⟩ (.evaluate "idea-1") 3).1 =
            .error .NotFoundError) ∨
       (findIdea sampleDB "idea-1" ≠ none ∧
          (handleRequest ⟨sampleDB, []⟩ (.evaluate "idea-1") 3).1 =
            .error .PreconditionError))) :=
  ⟨rfl, runEvaluation_sync_failure ⟨sampleDB, []⟩ "idea-1" 3 rfl⟩

/-- C4: when a stage executor fails inside a detached task, the `catch`
block only logs: the enrichment and evaluation tasks leave the database —
idea status, `updatedAt` and all stage records — exactly as it was, and
the sequential `/analyze` task aborted by an enrichment failure does too;
an `/analyze` run whose evaluation executor fails writes no status and no
evaluation record. -/
theorem detached_failure_no_mutation (db : DB) (id : String)
    (idea : IdeaRow) (enr : EnrichmentOutput) (ex : Executors) (now : Nat) :
    (∀ er, ex.enrichIdea idea.rawText idea.context = .error er →
        runEnrichTask db id idea ex now = db) ∧
    (∀ er, ex.evaluateIdea idea.rawText enr = .error er →
        runEvalTask db id idea enr ex now = db) ∧
    (∀ er, ex.enrichIdea idea.rawText idea.context = .error er →
        runAnalyzeTask db id idea ex now = db) ∧
    (∀ enr' er, ex.enrichIdea idea.rawText idea.context = .ok enr' →
        ex.evaluateIdea idea.rawText enr' = .error er →
        (runAnalyzeTask db id idea ex now).ideas = db.ideas ∧
        (runAnalyzeTask db id idea ex now).evaluations = db.evaluations) := by
  refine ⟨?_, ?_, ?_, ?_⟩
  · intro er he
    simp [runEnrichTask, he]
  · intro er he
    simp [runEvalTask, he]
  · intro er he
    simp [runAnalyzeTask, analyzeRun, he]
  · intro enr' er he hev
    simp [runAnalyzeTask, analyzeRun, he, hev, saveEnrichment]

/-- Witness for C4: with a `TransportError`-raising collaborator, the
enrichment task completes and the sample idea is still exactly as it was
(status `pending`). -/
theorem detached_failure_no_mutation_witness :
    failingExecutors.enrichIdea sampleIdea.rawText sampleIdea.context =
      .error .TransportError ∧
    runEnrichTask sampleDB "idea-1" sampleIdea failingExecutors 9 =
      sampleDB :=
  ⟨rfl,
   (detached_failure_no_mutation sampleDB "idea-1" sampleIdea
      sampleEnrichment failingExecutors 9).1 .TransportError rfl⟩

/-- C5: within a `/analyze` run, whenever the evaluation executor starts,
the enrichment record produced by this run's enrichment executor is
already persisted in the database state the evaluation step sees; and if
the enrichment executor fails, the sequential task aborts — no evaluation
step of any kind appears in the trace. -/
theorem pipeline_eval_after_enrich_persist (db : DB) (id : String)
    (idea : IdeaRow) (ex : Executors) (now : Nat) :
    (∀ p ∈ (analyzeRun db id idea ex now).1, p.1 = .evalExec →
        ∃ enr', ex.enrichIdea idea.rawText idea.context = .ok enr' ∧
          getEnrichment p.2 id = some enr') ∧
    (∀ er, ex.enrichIdea idea.rawText idea.context = .error er →
        ∀ p ∈ (analyzeRun db id idea ex now).1,
          p.1 ≠ .evalExec ∧ p.1 ≠ .evalPersist ∧ p.1 ≠ .routeStatusUpdate) := by
  constructor
  · intro p hp hev
    cases he : ex.enrichIdea idea.rawText idea.context with
    | error er =>
        simp [analyzeRun, he] at hp
        rw [hp] at hev
        simp at hev
    | ok enr =>
        refine ⟨enr, rfl, ?_⟩
        cases hv : ex.evaluateIdea idea.rawText enr with
        | error er =>
            simp [analyzeRun, he, hv] at hp
            rcases hp with hp | hp | hp
            · rw [hp] at hev
              simp at hev
            · rw [hp] at hev
              simp at hev
            · rw [hp]
              exact getEnrichment_saveEnrichment db id enr now
        | ok ev =>
            simp [analyzeRun, he, hv] at hp
            rcases hp with hp | hp | hp | hp | hp
            · rw [hp] at hev
              simp at hev
            · rw [hp] at hev
              simp at hev
            · rw [hp]
              exact getEnrichment_saveEnrichment db id enr now
            · rw [hp] at hev
              simp at hev
            · rw [hp] at hev
              simp at hev
  · intro er he p hp
    simp [analyzeRun, he] at hp
    rw [hp]
    exact ⟨by simp, by simp, by simp⟩

/-- Witness for C5: in the successful sample pipeline run, the evaluation
step starts in a state where the enrichment record is already
persisted. -/
theorem pipeline_eval_after_enrich_persist_witness :
    (PipelineEvent.evalExec,
        saveEnrichment sampleDB "idea-1" sampleEnrichment 4) ∈
      (analyzeRun sampleDB "idea-1" sampleIdea okExecutors 4).1 ∧
    ∃ enr', okExecutors.enrichIdea sampleIdea.rawText sampleIdea.context =
        .ok enr' ∧
      getEnrichment (saveEnrichment sampleDB "idea-1" sampleEnrichment 4)
        "idea-1" = some enr' :=
  ⟨by simp [analyzeRun, okExecutors],
   (pipeline_eval_after_enrich_persist sampleDB "idea-1" sampleIdea
      okExecutors 4).1
     (PipelineEvent.evalExec,
       saveEnrichment sampleDB "idea-1" sampleEnrichment 4)
     (by simp [analyzeRun, okExecutors]) rfl⟩

/-- C8 counterexample: two `enrich` run requests on the same idea, the
first one still in flight, leave two concurrently scheduled detached
tasks — the orchestrator does not enforce at-most-one-in-flight per
idea. -/
theorem second_enrich_request_second_task_in_flight :
    ((handleRequest ((handleRequest ⟨sampleDB, []⟩ (.enrich "idea-1") 1).2)
        (.enrich "idea-1") 2).2).pending.length = 2 := rfl

/-- C8 (amended): every accepted run request appends its own detached
task to the in-flight list, with no per-idea tracking — overlapping
requests on one idea therefore yield multiple concurrently executing
detached tasks (the spec's §4.1 caveat, not mutual exclusion). -/
theorem enrich_request_always_schedules_new_task (s : ServerState)
    (id : String) (idea : IdeaRow) (now : Nat)
    (h : findIdea s.db id = some idea) :
    handleRequest s (.enrich id) now =
      (.ok (), { db := s.db, pending := s.pending ++ [.enrichTask id idea] }) := by
  simp [handleRequest, postEnrich, h]

/-- Witness for C8 (amended): the sample idea's enrich request schedules
exactly one further task on top of whatever is pending. -/
theorem enrich_request_always_schedules_new_task_witness :
    findIdea sampleDB "idea-1" = some sampleIdea ∧
    handleRequest ⟨sampleDB, [.enrichTask "idea-1" sampleIdea]⟩
        (.enrich "idea-1") 2 =
      (.ok (), ⟨sampleDB, [.enrichTask "idea-1" sampleIdea,
                            .enrichTask "idea-1" sampleIdea]⟩) :=
  ⟨rfl,
   enrich_request_always_schedules_new_task
     ⟨sampleDB, [.enrichTask "idea-1" sampleIdea]⟩ "idea-1" sampleIdea 2 rfl⟩

end IdeaFactory
